import Mathlib

set_option maxHeartbeats 1000000

/-!
Verification of the curve-intersection and coordinate-solving kernel of
`src/bez.rs`.  The `f64` coordinates of the source are idealized as elements
of a linear ordered field `K` (instantiated with `ℚ` for concrete
computations and with `ℝ` for the root-solving layer).  Code of the
repository's geometry module that `src/bez.rs` imports but that is not part
of the sources (points, rectangles, the curve trait implementations, the
closed-form root solvers, the fixed-capacity vectors) is modelled from the
specification; each such definition carries a `Modelled from the spec`
doc comment.
-/

namespace Bez

/-- Modelled from the spec: a pair of double-precision coordinates (x, y)
(spec §3 "Point"); the floating-point coordinates are idealized as elements
of a linear ordered field. -/
structure Point (K : Type) where
  x : K
  y : K
deriving DecidableEq

/-- Modelled from the spec: an axis-aligned box with low/high bounds per axis
(spec §3 "Rect"). -/
structure Rect (K : Type) where
  x0 : K
  y0 : K
  x1 : K
  y1 : K
deriving DecidableEq

variable {K : Type} [LinearOrderedField K]

/-- Modelled from the spec: `Rect` "exposes width". -/
def Rect.width (r : Rect K) : K := r.x1 - r.x0

/-- Modelled from the spec: `Rect` "exposes height". -/
def Rect.height (r : Rect K) : K := r.y1 - r.y0

/-- Modelled from the spec: `Rect` "exposes center". -/
def Rect.center (r : Rect K) : Point K :=
  ⟨(r.x0 + r.x1) / 2, (r.y0 + r.y1) / 2⟩

/-- Modelled from the spec: the rectangle spanned by two points, with
normalized low/high bounds per axis. -/
def Rect.from_points (p q : Point K) : Rect K :=
  ⟨min p.x q.x, min p.y q.y, max p.x q.x, max p.y q.y⟩

/-- Modelled from the spec: the collaborator "approximate equality with
tolerance" predicate on points (spec §6), taken as Euclidean distance at most
the tolerance, stated with squares so that it lives inside the field. -/
def Point.approx_eq (p q : Point K) (tolerance : K) : Prop :=
  (p.x - q.x) ^ 2 + (p.y - q.y) ^ 2 ≤ tolerance ^ 2

instance (p q : Point K) (t : K) : Decidable (Point.approx_eq p q t) := by
  unfold Point.approx_eq
  exact inferInstance

/-- Modelled from the spec: a line segment, "two endpoints (p0, p1)"
(spec §3 "Line"). -/
structure Line (K : Type) where
  p0 : Point K
  p1 : Point K
deriving DecidableEq

/-- Modelled from the spec: a quadratic Bézier, "three control points"
(spec §3 "QuadBez"). -/
structure QuadBez (K : Type) where
  p0 : Point K
  p1 : Point K
  p2 : Point K
deriving DecidableEq

/-- Modelled from the spec: a cubic Bézier, "four control points"
(spec §3 "CubicBez"). -/
structure CubicBez (K : Type) where
  p0 : Point K
  p1 : Point K
  p2 : Point K
  p3 : Point K
deriving DecidableEq

/-- Modelled from the spec: "a closed tagged union over Line, QuadBez,
CubicBez" (spec §3 "PathSeg"). -/
inductive PathSeg (K : Type) where
  | Line : Line K → PathSeg K
  | Quad : QuadBez K → PathSeg K
  | Cubic : CubicBez K → PathSeg K
deriving DecidableEq

/-- Modelled from the spec: evaluation of a line at parameter `t`
(spec §4.1 `evaluate`). -/
def Line.eval (l : Line K) (t : K) : Point K :=
  ⟨l.p0.x + t * (l.p1.x - l.p0.x), l.p0.y + t * (l.p1.y - l.p0.y)⟩

/-- Modelled from the spec: evaluation of a quadratic Bézier in the
Bernstein basis (spec §4.1, §4.3). -/
def QuadBez.eval (q : QuadBez K) (t : K) : Point K :=
  ⟨(1 - t) ^ 2 * q.p0.x + 2 * t * (1 - t) * q.p1.x + t ^ 2 * q.p2.x,
   (1 - t) ^ 2 * q.p0.y + 2 * t * (1 - t) * q.p1.y + t ^ 2 * q.p2.y⟩

/-- Modelled from the spec: evaluation of a cubic Bézier in the Bernstein
basis (spec §4.1, §4.3). -/
def CubicBez.eval (c : CubicBez K) (t : K) : Point K :=
  ⟨(1 - t) ^ 3 * c.p0.x + 3 * t * (1 - t) ^ 2 * c.p1.x
      + 3 * t ^ 2 * (1 - t) * c.p2.x + t ^ 3 * c.p3.x,
   (1 - t) ^ 3 * c.p0.y + 3 * t * (1 - t) ^ 2 * c.p1.y
      + 3 * t ^ 2 * (1 - t) * c.p2.y + t ^ 3 * c.p3.y⟩

/-- Modelled from the spec: evaluation of a path segment dispatches to the
matching variant (spec §4.3). -/
def PathSeg.eval : PathSeg K → K → Point K
  | PathSeg.Line l, t => l.eval t
  | PathSeg.Quad q, t => q.eval t
  | PathSeg.Cubic c, t => c.eval t

/-- Modelled from the spec: `start()` returns the exact start control point
(spec §4.1: "exact endpoints, not re-evaluated"). -/
def PathSeg.start : PathSeg K → Point K
  | PathSeg.Line l => l.p0
  | PathSeg.Quad q => q.p0
  | PathSeg.Cubic c => c.p0

/-- Modelled from the spec: `end()` returns the exact end control point;
named `stop` because `end` is reserved in Lean. -/
def PathSeg.stop : PathSeg K → Point K
  | PathSeg.Line l => l.p1
  | PathSeg.Quad q => q.p2
  | PathSeg.Cubic c => c.p3

/-- Midpoint of two points, used by the De Casteljau subdivision. -/
def Point.mid (p q : Point K) : Point K :=
  ⟨(p.x + q.x) / 2, (p.y + q.y) / 2⟩

/-- Modelled from the spec: subdivision of a line at t = 0.5 (spec §4.1
`subdivide`). -/
def Line.subdivide (l : Line K) : Line K × Line K :=
  let m := l.p0.mid l.p1
  (⟨l.p0, m⟩, ⟨m, l.p1⟩)

/-- Modelled from the spec: De Casteljau subdivision of a quadratic Bézier at
t = 0.5 (spec §4.1 `subdivide`). -/
def QuadBez.subdivide (q : QuadBez K) : QuadBez K × QuadBez K :=
  let l1 := q.p0.mid q.p1
  let r1 := q.p1.mid q.p2
  let m := l1.mid r1
  (⟨q.p0, l1, m⟩, ⟨m, r1, q.p2⟩)

/-- Modelled from the spec: De Casteljau subdivision of a cubic Bézier at
t = 0.5 (spec §4.1 `subdivide`). -/
def CubicBez.subdivide (c : CubicBez K) : CubicBez K × CubicBez K :=
  let l1 := c.p0.mid c.p1
  let m1 := c.p1.mid c.p2
  let r1 := c.p2.mid c.p3
  let l2 := l1.mid m1
  let r2 := m1.mid r1
  let m := l2.mid r2
  (⟨c.p0, l1, l2, m⟩, ⟨m, r2, r1, c.p3⟩)

/-- Modelled from the spec: subdivision of a path segment preserves the
variant (spec §4.1). -/
def PathSeg.subdivide : PathSeg K → PathSeg K × PathSeg K
  | PathSeg.Line l =>
    let p := l.subdivide
    (PathSeg.Line p.1, PathSeg.Line p.2)
  | PathSeg.Quad q =>
    let p := q.subdivide
    (PathSeg.Quad p.1, PathSeg.Quad p.2)
  | PathSeg.Cubic c =>
    let p := c.subdivide
    (PathSeg.Cubic p.1, PathSeg.Cubic p.2)

/-- The curve capability set of the `ParamCurve` bound used by `src/bez.rs`
(spec §4.1); `stop` embeds Rust's `end`, which is reserved in Lean.
`subsegment` is omitted because no operation of `src/bez.rs` that the claims
mention uses it. -/
class ParamCurve (K : Type) [LinearOrderedField K] (C : Type) where
  eval : C → K → Point K
  start : C → Point K
  stop : C → Point K
  subdivide : C → C × C

/-- The extrema capability set of the `ParamCurveExtrema` bound used by
`src/bez.rs` (spec §4.1). -/
class ParamCurveExtrema (K : Type) [LinearOrderedField K] (C : Type)
    extends ParamCurve K C where
  extrema : C → List K
  extrema_ranges : C → List (K × K)
  bounding_box : C → Rect K

instance : ParamCurve K (PathSeg K) where
  eval := PathSeg.eval
  start := PathSeg.start
  stop := PathSeg.stop
  subdivide := PathSeg.subdivide

/-- A wrapper for curves that are monotone in both dimensions
(src/bez.rs line 13). -/
structure Monotone (C : Type) where
  val : C

/-- src/bez.rs lines 44–65: `ParamCurve` for `Monotone` forwards every
operation to the wrapped curve. -/
instance {C : Type} [ParamCurve K C] : ParamCurve K (Monotone C) where
  eval m t := ParamCurve.eval m.val t
  start m := ParamCurve.start (K := K) m.val
  stop m := ParamCurve.stop (K := K) m.val
  subdivide m :=
    let p := ParamCurve.subdivide (K := K) m.val
    (⟨p.1⟩, ⟨p.2⟩)

/-- src/bez.rs lines 67–81: `ParamCurveExtrema` for `Monotone` reports no
extrema, the single full-domain range, and the bounding box spanned by the
two endpoints. -/
instance {C : Type} [ParamCurve K C] : ParamCurveExtrema K (Monotone C) where
  extrema _ := []
  extrema_ranges _ := [(0, 1)]
  bounding_box m :=
    Rect.from_points (ParamCurve.start (K := K) m) (ParamCurve.stop (K := K) m)

/-- src/bez.rs lines 168–170: strict bounding-box overlap test. -/
def bboxes_overlap (ba bb : Rect K) : Prop :=
  ba.x1 > bb.x0 ∧ bb.x1 > ba.x0 ∧ ba.y1 > bb.y0 ∧ bb.y1 > ba.y0

instance (ba bb : Rect K) : Decidable (bboxes_overlap ba bb) := by
  unfold bboxes_overlap
  exact inferInstance

/-- Modelled from the spec: pushing into a fixed-capacity container, where
"once full, further results are silently dropped" (spec §3). -/
def avPush {α : Type} (cap : ℕ) (xs : List α) (x : α) : List α :=
  if xs.length < cap then xs ++ [x] else xs

/-- src/bez.rs lines 148–158: the `extend` closure of
`find_intersections_bbox`, which appends each candidate point only when the
output is not yet full and no already collected point is approximately equal
to it at tolerance `d`. -/
def extendDedup (cap : ℕ) (d : K) (r : List (Point K)) (values : List (Point K)) :
    List (Point K) :=
  values.foldl
    (fun r point =>
      if r.length < cap ∧ ¬ ∃ p ∈ r, Point.approx_eq p point d then r ++ [point]
      else r)
    r

/-- src/bez.rs lines 115–166: find the intersections of two curves
recursively using bounding boxes.  The `fuel` argument embeds the source's
unbounded recursion (the source recurses without an explicit depth bound) and
`cap` is the capacity of the caller-chosen array-vec. -/
def find_intersections_bbox {C : Type} [ParamCurveExtrema K C] :
    ℕ → ℕ → C → C → K → List (Point K)
  | 0, _, _, _, _ => []
  | fuel + 1, cap, a, b, accuracy =>
    let ba := ParamCurveExtrema.bounding_box (K := K) a
    let bb := ParamCurveExtrema.bounding_box (K := K) b
    if ¬ bboxes_overlap ba bb then []
    else if ba.width < accuracy ∧ ba.height < accuracy then avPush cap [] ba.center
    else if bb.width < accuracy ∧ bb.height < accuracy then avPush cap [] bb.center
    else
      let pa := ParamCurve.subdivide (K := K) a
      let pb := ParamCurve.subdivide (K := K) b
      let r1 := extendDedup cap (2 * accuracy) []
        (find_intersections_bbox fuel cap pa.1 pb.1 accuracy)
      let r2 := extendDedup cap (2 * accuracy) r1
        (find_intersections_bbox fuel cap pa.1 pb.2 accuracy)
      let r3 := extendDedup cap (2 * accuracy) r2
        (find_intersections_bbox fuel cap pa.2 pb.1 accuracy)
      extendDedup cap (2 * accuracy) r3
        (find_intersections_bbox fuel cap pa.2 pb.2 accuracy)

/-- src/bez.rs lines 21–41: intersection of two monotone path segments.  The
parameter `il` stands for the geometry module's `PathSeg::intersect_line`
primitive, which is not part of the sources; it is represented by the list of
line parameters (`line_t`) of the reported hits. -/
def Monotone.intersect (il : PathSeg K → Line K → List K) (fuel cap : ℕ)
    (a b : Monotone (PathSeg K)) (accuracy : K) : List (Point K) :=
  if ¬ bboxes_overlap (ParamCurveExtrema.bounding_box (K := K) a)
      (ParamCurveExtrema.bounding_box (K := K) b) then []
  else
    match a.val, b.val with
    | seg, PathSeg.Line l => ((il seg l).map (fun t => l.eval t)).take cap
    | PathSeg.Line l, seg => ((il seg l).map (fun t => l.eval t)).take cap
    | _, _ => find_intersections_bbox fuel cap a b accuracy

open Polynomial

/-- Modelled from the spec: the closed-form solvers of the missing `roots`
module "produce all real roots in a bounded fixed-capacity output"
(spec §4.2); a polynomial is embedded as its duplicate-free list of real
roots, which is empty for the identically-zero polynomial (the spec leaves
that fully degenerate case unspecified). -/
noncomputable def realRoots (p : Polynomial ℝ) : List ℝ :=
  p.roots.toFinset.toList

/-- The polynomial `c0 + c1 t` of the linear solver. -/
noncomputable def linPoly (c0 c1 : ℝ) : Polynomial ℝ :=
  C c0 + C c1 * X

/-- The polynomial `c0 + c1 t + c2 t^2` of the quadratic solver. -/
noncomputable def quadPoly (c0 c1 c2 : ℝ) : Polynomial ℝ :=
  C c0 + C c1 * X + C c2 * X ^ 2

/-- The polynomial `c0 + c1 t + c2 t^2 + c3 t^3` of the cubic solver. -/
noncomputable def cubicPoly (c0 c1 c2 c3 : ℝ) : Polynomial ℝ :=
  C c0 + C c1 * X + C c2 * X ^ 2 + C c3 * X ^ 3

/-- Modelled from the spec: `roots::solve_linear` (spec §4.2). -/
noncomputable def solve_linear (c0 c1 : ℝ) : List ℝ :=
  realRoots (linPoly c0 c1)

/-- Modelled from the spec: `roots::solve_quadratic` (spec §4.2). -/
noncomputable def solve_quadratic (c0 c1 c2 : ℝ) : List ℝ :=
  realRoots (quadPoly c0 c1 c2)

/-- Modelled from the spec: `roots::solve_cubic`, which "must handle
degenerate leading coefficients without requiring the caller to pre-classify
the degree" (spec §4.2); the polynomial model does so by construction. -/
noncomputable def solve_cubic (c0 c1 c2 c3 : ℝ) : List ℝ :=
  realRoots (cubicPoly c0 c1 c2 c3)

/-- src/bez.rs line 199: the maximum number of solved `t` values. -/
def MAX_SOLVE : ℕ := 3

/-- src/bez.rs lines 290–295: filter out all `t` values that are not between
`-EPSILON` and `1 + EPSILON` with `EPSILON = 1e-6`; collecting into the
capacity-3 array-vec is embedded by `List.take MAX_SOLVE`. -/
noncomputable def filter_t (vec : List ℝ) : List ℝ :=
  (vec.filter (fun t => decide (-(1e-6 : ℝ) ≤ t ∧ t ≤ 1 + 1e-6))).take MAX_SOLVE

/-- src/bez.rs lines 251–263: `solve_cubic_t_for_v`. -/
noncomputable def solve_cubic_t_for_v (p0 p1 p2 p3 v : ℝ) : List ℝ :=
  filter_t (solve_cubic (p0 - v) (-3 * p0 + 3 * p1)
    (3 * p0 - 6 * p1 + 3 * p2) (-p0 + 3 * p1 - 3 * p2 + p3))

/-- src/bez.rs lines 266–276: `solve_quad_t_for_v`. -/
noncomputable def solve_quad_t_for_v (p0 p1 p2 v : ℝ) : List ℝ :=
  filter_t (solve_quadratic (p0 - v) (-2 * p0 + 2 * p1) (p0 - 2 * p1 + p2))

/-- src/bez.rs lines 279–287: `solve_line_t_for_v`. -/
noncomputable def solve_line_t_for_v (p0 p1 v : ℝ) : List ℝ :=
  filter_t (solve_linear (p0 - v) (-p0 + p1))

/-- src/bez.rs lines 240–242: `ParamCurveSolve::solve_t_for_x` for `Line`. -/
noncomputable def Line.solve_t_for_x (l : Line ℝ) (x : ℝ) : List ℝ :=
  solve_line_t_for_v l.p0.x l.p1.x x

/-- src/bez.rs lines 244–246: `ParamCurveSolve::solve_t_for_y` for `Line`. -/
noncomputable def Line.solve_t_for_y (l : Line ℝ) (y : ℝ) : List ℝ :=
  solve_line_t_for_v l.p0.y l.p1.y y

/-- src/bez.rs lines 230–232: `solve_t_for_x` for `QuadBez`. -/
noncomputable def QuadBez.solve_t_for_x (q : QuadBez ℝ) (x : ℝ) : List ℝ :=
  solve_quad_t_for_v q.p0.x q.p1.x q.p2.x x

/-- src/bez.rs lines 234–236: `solve_t_for_y` for `QuadBez`. -/
noncomputable def QuadBez.solve_t_for_y (q : QuadBez ℝ) (y : ℝ) : List ℝ :=
  solve_quad_t_for_v q.p0.y q.p1.y q.p2.y y

/-- src/bez.rs lines 220–222: `solve_t_for_x` for `CubicBez`. -/
noncomputable def CubicBez.solve_t_for_x (c : CubicBez ℝ) (x : ℝ) : List ℝ :=
  solve_cubic_t_for_v c.p0.x c.p1.x c.p2.x c.p3.x x

/-- src/bez.rs lines 224–226: `solve_t_for_y` for `CubicBez`. -/
noncomputable def CubicBez.solve_t_for_y (c : CubicBez ℝ) (y : ℝ) : List ℝ :=
  solve_cubic_t_for_v c.p0.y c.p1.y c.p2.y c.p3.y y

/-- src/bez.rs lines 202–208: `solve_t_for_x` for `PathSeg` dispatches to
the matching variant. -/
noncomputable def PathSeg.solve_t_for_x : PathSeg ℝ → ℝ → List ℝ
  | PathSeg.Line l, x => l.solve_t_for_x x
  | PathSeg.Quad q, x => q.solve_t_for_x x
  | PathSeg.Cubic c, x => c.solve_t_for_x x

/-- src/bez.rs lines 210–216: `solve_t_for_y` for `PathSeg`. -/
noncomputable def PathSeg.solve_t_for_y : PathSeg ℝ → ℝ → List ℝ
  | PathSeg.Line l, y => l.solve_t_for_y y
  | PathSeg.Quad q, y => q.solve_t_for_y y
  | PathSeg.Cubic c, y => c.solve_t_for_y y

/-- src/bez.rs lines 181–186: the trait-default `solve_y_for_x`, mapping each
solved parameter through evaluation; collecting into the capacity-3
array-vec is embedded by `List.take MAX_SOLVE`. -/
noncomputable def PathSeg.solve_y_for_x (seg : PathSeg ℝ) (x : ℝ) : List ℝ :=
  ((seg.solve_t_for_x x).map (fun t => (seg.eval t).y)).take MAX_SOLVE

/-- src/bez.rs lines 189–194: the trait-default `solve_x_for_y`. -/
noncomputable def PathSeg.solve_x_for_y (seg : PathSeg ℝ) (y : ℝ) : List ℝ :=
  ((seg.solve_t_for_y y).map (fun t => (seg.eval t).x)).take MAX_SOLVE

/-- The segment is non-constant in the x axis: some derived coefficient of
its x polynomial beyond the constant one (spec §4.3) is nonzero. -/
def nonconstX : PathSeg ℝ → Prop
  | PathSeg.Line l => -l.p0.x + l.p1.x ≠ 0
  | PathSeg.Quad q =>
    ¬(-2 * q.p0.x + 2 * q.p1.x = 0 ∧ q.p0.x - 2 * q.p1.x + q.p2.x = 0)
  | PathSeg.Cubic c =>
    ¬(-3 * c.p0.x + 3 * c.p1.x = 0 ∧ 3 * c.p0.x - 6 * c.p1.x + 3 * c.p2.x = 0 ∧
      -c.p0.x + 3 * c.p1.x - 3 * c.p2.x + c.p3.x = 0)

/-- The segment is non-constant in the y axis (same coefficients as
`nonconstX`, for the y coordinates). -/
def nonconstY : PathSeg ℝ → Prop
  | PathSeg.Line l => -l.p0.y + l.p1.y ≠ 0
  | PathSeg.Quad q =>
    ¬(-2 * q.p0.y + 2 * q.p1.y = 0 ∧ q.p0.y - 2 * q.p1.y + q.p2.y = 0)
  | PathSeg.Cubic c =>
    ¬(-3 * c.p0.y + 3 * c.p1.y = 0 ∧ 3 * c.p0.y - 6 * c.p1.y + 3 * c.p2.y = 0 ∧
      -c.p0.y + 3 * c.p1.y - 3 * c.p2.y + c.p3.y = 0)

lemma avPush_full {α : Type} {cap : ℕ} {xs : List α} (h : cap ≤ xs.length) (x : α) :
    avPush cap xs x = xs := by
  unfold avPush
  rw [if_neg (by omega)]

lemma avPush_length_le {α : Type} {cap : ℕ} {xs : List α} (h : xs.length ≤ cap) (x : α) :
    (avPush cap xs x).length ≤ cap := by
  unfold avPush
  by_cases hc : xs.length < cap
  · rw [if_pos hc, List.length_append, List.length_singleton]
    omega
  · rw [if_neg hc]
    exact h

lemma avPush_nil_of_cap_pos {α : Type} {cap : ℕ} (h : 1 ≤ cap) (x : α) :
    avPush cap [] x = [x] := by
  unfold avPush
  rw [if_pos (by simpa using h)]
  rfl

lemma extendDedup_nil (cap : ℕ) (d : K) (r : List (Point K)) :
    extendDedup cap d r [] = r := rfl

lemma extendDedup_cons (cap : ℕ) (d : K) (r : List (Point K)) (v : Point K)
    (vs : List (Point K)) :
    extendDedup cap d r (v :: vs) =
      extendDedup cap d
        (if r.length < cap ∧ ¬ ∃ p ∈ r, Point.approx_eq p v d then r ++ [v] else r)
        vs := rfl

lemma extendDedup_length_le {cap : ℕ} {d : K} {r : List (Point K)}
    (h : r.length ≤ cap) (vs : List (Point K)) :
    (extendDedup cap d r vs).length ≤ cap := by
  induction vs generalizing r with
  | nil => exact h
  | cons v vs ih =>
    rw [extendDedup_cons]
    by_cases hc : r.length < cap ∧ ¬ ∃ p ∈ r, Point.approx_eq p v d
    · rw [if_pos hc]
      have h1 := hc.1
      refine ih ?_
      rw [List.length_append, List.length_singleton]
      omega
    · rw [if_neg hc]
      exact ih h

lemma extendDedup_full {cap : ℕ} {d : K} {r : List (Point K)} (h : cap ≤ r.length)
    (vs : List (Point K)) : extendDedup cap d r vs = r := by
  induction vs with
  | nil => rfl
  | cons v vs ih =>
    rw [extendDedup_cons, if_neg]
    · exact ih
    · intro hc
      have := hc.1
      omega

lemma extendDedup_pairwise {cap : ℕ} {d : K} {r : List (Point K)}
    (h : List.Pairwise (fun p q => ¬ Point.approx_eq p q d) r)
    (vs : List (Point K)) :
    List.Pairwise (fun p q => ¬ Point.approx_eq p q d) (extendDedup cap d r vs) := by
  induction vs generalizing r with
  | nil => exact h
  | cons v vs ih =>
    rw [extendDedup_cons]
    by_cases hc : r.length < cap ∧ ¬ ∃ p ∈ r, Point.approx_eq p v d
    · rw [if_pos hc]
      refine ih ?_
      rw [List.pairwise_append]
      refine ⟨h, List.pairwise_singleton _ _, ?_⟩
      intro p hp q hq
      rw [List.mem_singleton] at hq
      subst hq
      exact fun hap => hc.2 ⟨p, hp, hap⟩
    · rw [if_neg hc]
      exact ih h

lemma find_succ {C : Type} [ParamCurveExtrema K C] (fuel cap : ℕ) (a b : C)
    (accuracy : K) :
    find_intersections_bbox (fuel + 1) cap a b accuracy =
      if ¬ bboxes_overlap (ParamCurveExtrema.bounding_box (K := K) a)
          (ParamCurveExtrema.bounding_box (K := K) b) then []
      else if (ParamCurveExtrema.bounding_box (K := K) a).width < accuracy ∧
          (ParamCurveExtrema.bounding_box (K := K) a).height < accuracy then
        avPush cap [] (ParamCurveExtrema.bounding_box (K := K) a).center
      else if (ParamCurveExtrema.bounding_box (K := K) b).width < accuracy ∧
          (ParamCurveExtrema.bounding_box (K := K) b).height < accuracy then
        avPush cap [] (ParamCurveExtrema.bounding_box (K := K) b).center
      else
        extendDedup cap (2 * accuracy)
          (extendDedup cap (2 * accuracy)
            (extendDedup cap (2 * accuracy)
              (extendDedup cap (2 * accuracy) []
                (find_intersections_bbox fuel cap
                  (ParamCurve.subdivide (K := K) a).1
                  (ParamCurve.subdivide (K := K) b).1 accuracy))
              (find_intersections_bbox fuel cap
                (ParamCurve.subdivide (K := K) a).1
                (ParamCurve.subdivide (K := K) b).2 accuracy))
            (find_intersections_bbox fuel cap
              (ParamCurve.subdivide (K := K) a).2
              (ParamCurve.subdivide (K := K) b).1 accuracy))
          (find_intersections_bbox fuel cap
            (ParamCurve.subdivide (K := K) a).2
            (ParamCurve.subdivide (K := K) b).2 accuracy) := rfl

lemma find_length_le {C : Type} [ParamCurveExtrema K C] (fuel cap : ℕ) (a b : C)
    (accuracy : K) :
    (find_intersections_bbox fuel cap a b accuracy).length ≤ cap := by
  cases fuel with
  | zero => exact Nat.zero_le _
  | succ fuel =>
    rw [find_succ]
    by_cases h1 : ¬ bboxes_overlap (ParamCurveExtrema.bounding_box (K := K) a)
        (ParamCurveExtrema.bounding_box (K := K) b)
    · rw [if_pos h1]
      exact Nat.zero_le _
    · rw [if_neg h1]
      by_cases h2 : (ParamCurveExtrema.bounding_box (K := K) a).width < accuracy ∧
          (ParamCurveExtrema.bounding_box (K := K) a).height < accuracy
      · rw [if_pos h2]
        exact avPush_length_le (Nat.zero_le _) _
      · rw [if_neg h2]
        by_cases h3 : (ParamCurveExtrema.bounding_box (K := K) b).width < accuracy ∧
            (ParamCurveExtrema.bounding_box (K := K) b).height < accuracy
        · rw [if_pos h3]
          exact avPush_length_le (Nat.zero_le _) _
        · rw [if_neg h3]
          exact extendDedup_length_le
            (extendDedup_length_le
              (extendDedup_length_le
                (extendDedup_length_le (Nat.zero_le _) _) _) _) _

lemma find_pairwise {C : Type} [ParamCurveExtrema K C] (fuel cap : ℕ) (a b : C)
    (accuracy : K) :
    List.Pairwise (fun p q => ¬ Point.approx_eq p q (2 * accuracy))
      (find_intersections_bbox fuel cap a b accuracy) := by
  cases fuel with
  | zero => exact List.Pairwise.nil
  | succ fuel =>
    rw [find_succ]
    by_cases h1 : ¬ bboxes_overlap (ParamCurveExtrema.bounding_box (K := K) a)
        (ParamCurveExtrema.bounding_box (K := K) b)
    · rw [if_pos h1]
      exact List.Pairwise.nil
    · rw [if_neg h1]
      by_cases h2 : (ParamCurveExtrema.bounding_box (K := K) a).width < accuracy ∧
          (ParamCurveExtrema.bounding_box (K := K) a).height < accuracy
      · rw [if_pos h2]
        unfold avPush
        by_cases hc : ([] : List (Point K)).length < cap
        · rw [if_pos hc]
          exact List.pairwise_singleton _ _
        · rw [if_neg hc]
          exact List.Pairwise.nil
      · rw [if_neg h2]
        by_cases h3 : (ParamCurveExtrema.bounding_box (K := K) b).width < accuracy ∧
            (ParamCurveExtrema.bounding_box (K := K) b).height < accuracy
        · rw [if_pos h3]
          unfold avPush
          by_cases hc : ([] : List (Point K)).length < cap
          · rw [if_pos hc]
            exact List.pairwise_singleton _ _
          · rw [if_neg hc]
            exact List.Pairwise.nil
        · rw [if_neg h3]
          exact extendDedup_pairwise
            (extendDedup_pairwise
              (extendDedup_pairwise
                (extendDedup_pairwise List.Pairwise.nil _) _) _) _

lemma mem_realRoots {p : Polynomial ℝ} {t : ℝ} (hp : p ≠ 0) (ht : p.eval t = 0) :
    t ∈ realRoots p := by
  unfold realRoots
  rw [Finset.mem_toList, Multiset.mem_toFinset, Polynomial.mem_roots']
  exact ⟨hp, ht⟩

lemma realRoots_sound {p : Polynomial ℝ} {t : ℝ} (h : t ∈ realRoots p) :
    p.eval t = 0 := by
  unfold realRoots at h
  rw [Finset.mem_toList, Multiset.mem_toFinset, Polynomial.mem_roots'] at h
  exact h.2

lemma realRoots_length_le (p : Polynomial ℝ) : (realRoots p).length ≤ p.natDegree := by
  unfold realRoots
  rw [Finset.length_toList]
  exact le_trans (Multiset.toFinset_card_le _) (Polynomial.card_roots' p)

lemma linPoly_eval (c0 c1 t : ℝ) : (linPoly c0 c1).eval t = c0 + c1 * t := by
  simp [linPoly]

lemma quadPoly_eval (c0 c1 c2 t : ℝ) :
    (quadPoly c0 c1 c2).eval t = c0 + c1 * t + c2 * t ^ 2 := by
  simp [quadPoly]

lemma cubicPoly_eval (c0 c1 c2 c3 t : ℝ) :
    (cubicPoly c0 c1 c2 c3).eval t = c0 + c1 * t + c2 * t ^ 2 + c3 * t ^ 3 := by
  simp [cubicPoly]

lemma linPoly_natDegree_le (c0 c1 : ℝ) : (linPoly c0 c1).natDegree ≤ 1 := by
  unfold linPoly
  compute_degree

lemma quadPoly_natDegree_le (c0 c1 c2 : ℝ) : (quadPoly c0 c1 c2).natDegree ≤ 2 := by
  unfold quadPoly
  compute_degree

lemma cubicPoly_natDegree_le (c0 c1 c2 c3 : ℝ) :
    (cubicPoly c0 c1 c2 c3).natDegree ≤ 3 := by
  unfold cubicPoly
  compute_degree

lemma linPoly_coeff_one (c0 c1 : ℝ) : (linPoly c0 c1).coeff 1 = c1 := by
  simp [linPoly, Polynomial.coeff_C]

lemma quadPoly_coeff_one (c0 c1 c2 : ℝ) : (quadPoly c0 c1 c2).coeff 1 = c1 := by
  simp [quadPoly, Polynomial.coeff_C, Polynomial.coeff_X_pow]

lemma quadPoly_coeff_two (c0 c1 c2 : ℝ) : (quadPoly c0 c1 c2).coeff 2 = c2 := by
  simp [quadPoly, Polynomial.coeff_C, Polynomial.coeff_X_pow]

lemma cubicPoly_coeff_one (c0 c1 c2 c3 : ℝ) :
    (cubicPoly c0 c1 c2 c3).coeff 1 = c1 := by
  simp [cubicPoly, Polynomial.coeff_C, Polynomial.coeff_X_pow]

lemma cubicPoly_coeff_two (c0 c1 c2 c3 : ℝ) :
    (cubicPoly c0 c1 c2 c3).coeff 2 = c2 := by
  simp [cubicPoly, Polynomial.coeff_C, Polynomial.coeff_X_pow]

lemma cubicPoly_coeff_three (c0 c1 c2 c3 : ℝ) :
    (cubicPoly c0 c1 c2 c3).coeff 3 = c3 := by
  simp [cubicPoly, Polynomial.coeff_C, Polynomial.coeff_X_pow]

lemma linPoly_ne_zero {c0 c1 : ℝ} (h : c1 ≠ 0) : linPoly c0 c1 ≠ 0 := by
  intro h0
  exact h (by rw [← linPoly_coeff_one c0 c1, h0, Polynomial.coeff_zero])

lemma quadPoly_ne_zero {c0 c1 c2 : ℝ} (h : ¬(c1 = 0 ∧ c2 = 0)) :
    quadPoly c0 c1 c2 ≠ 0 := by
  intro h0
  refine h ⟨?_, ?_⟩
  · rw [← quadPoly_coeff_one c0 c1 c2, h0, Polynomial.coeff_zero]
  · rw [← quadPoly_coeff_two c0 c1 c2, h0, Polynomial.coeff_zero]

lemma cubicPoly_ne_zero {c0 c1 c2 c3 : ℝ} (h : ¬(c1 = 0 ∧ c2 = 0 ∧ c3 = 0)) :
    cubicPoly c0 c1 c2 c3 ≠ 0 := by
  intro h0
  refine h ⟨?_, ?_, ?_⟩
  · rw [← cubicPoly_coeff_one c0 c1 c2 c3, h0, Polynomial.coeff_zero]
  · rw [← cubicPoly_coeff_two c0 c1 c2 c3, h0, Polynomial.coeff_zero]
  · rw [← cubicPoly_coeff_three c0 c1 c2 c3, h0, Polynomial.coeff_zero]

lemma filter_t_length_le (vec : List ℝ) : (filter_t vec).length ≤ 3 := by
  unfold filter_t MAX_SOLVE
  exact le_trans (List.length_take_le _ _) (le_refl _)

lemma mem_filter_t {vec : List ℝ} {t : ℝ} (hlen : vec.length ≤ 3) (hm : t ∈ vec)
    (h0 : -(1e-6 : ℝ) ≤ t) (h1 : t ≤ 1 + 1e-6) : t ∈ filter_t vec := by
  unfold filter_t
  have hf : t ∈ vec.filter (fun t => decide (-(1e-6 : ℝ) ≤ t ∧ t ≤ 1 + 1e-6)) := by
    rw [List.mem_filter]
    exact ⟨hm, by simp [h0, h1]⟩
  rw [List.take_of_length_le]
  · exact hf
  · exact le_trans (List.length_filter_le _ _) hlen

lemma filter_t_mem_elim {vec : List ℝ} {t : ℝ} (h : t ∈ filter_t vec) :
    t ∈ vec ∧ -(1e-6 : ℝ) ≤ t ∧ t ≤ 1 + 1e-6 := by
  unfold filter_t at h
  have hf := List.mem_of_mem_take h
  rw [List.mem_filter] at hf
  refine ⟨hf.1, ?_⟩
  have := hf.2
  simpa using this

lemma mem_solve_line_t_for_v {p0 p1 v t : ℝ} (hc : ¬(-p0 + p1 = 0))
    (hv : (p0 - v) + (-p0 + p1) * t = 0)
    (h0 : -(1e-6 : ℝ) ≤ t) (h1 : t ≤ 1 + 1e-6) :
    t ∈ solve_line_t_for_v p0 p1 v := by
  unfold solve_line_t_for_v
  refine mem_filter_t ?_ ?_ h0 h1
  · exact le_trans (realRoots_length_le _) (le_trans (linPoly_natDegree_le _ _) (by omega))
  · exact mem_realRoots (linPoly_ne_zero hc) (by rw [linPoly_eval]; linarith)

lemma mem_solve_quad_t_for_v {p0 p1 p2 v t : ℝ}
    (hc : ¬(-2 * p0 + 2 * p1 = 0 ∧ p0 - 2 * p1 + p2 = 0))
    (hv : (p0 - v) + (-2 * p0 + 2 * p1) * t + (p0 - 2 * p1 + p2) * t ^ 2 = 0)
    (h0 : -(1e-6 : ℝ) ≤ t) (h1 : t ≤ 1 + 1e-6) :
    t ∈ solve_quad_t_for_v p0 p1 p2 v := by
  unfold solve_quad_t_for_v
  refine mem_filter_t ?_ ?_ h0 h1
  · exact le_trans (realRoots_length_le _) (le_trans (quadPoly_natDegree_le _ _ _) (by omega))
  · exact mem_realRoots (quadPoly_ne_zero hc) (by rw [quadPoly_eval]; linarith)

lemma mem_solve_cubic_t_for_v {p0 p1 p2 p3 v t : ℝ}
    (hc : ¬(-3 * p0 + 3 * p1 = 0 ∧ 3 * p0 - 6 * p1 + 3 * p2 = 0 ∧
      -p0 + 3 * p1 - 3 * p2 + p3 = 0))
    (hv : (p0 - v) + (-3 * p0 + 3 * p1) * t + (3 * p0 - 6 * p1 + 3 * p2) * t ^ 2 +
      (-p0 + 3 * p1 - 3 * p2 + p3) * t ^ 3 = 0)
    (h0 : -(1e-6 : ℝ) ≤ t) (h1 : t ≤ 1 + 1e-6) :
    t ∈ solve_cubic_t_for_v p0 p1 p2 p3 v := by
  unfold solve_cubic_t_for_v
  refine mem_filter_t ?_ ?_ h0 h1
  · exact le_trans (realRoots_length_le _) (cubicPoly_natDegree_le _ _ _ _)
  · exact mem_realRoots (cubicPoly_ne_zero hc) (by rw [cubicPoly_eval]; linarith)

lemma solve_line_t_for_v_sound {p0 p1 v t : ℝ} (h : t ∈ solve_line_t_for_v p0 p1 v) :
    (p0 - v) + (-p0 + p1) * t = 0 ∧ -(1e-6 : ℝ) ≤ t ∧ t ≤ 1 + 1e-6 := by
  unfold solve_line_t_for_v at h
  obtain ⟨hm, hb⟩ := filter_t_mem_elim h
  have := realRoots_sound hm
  rw [linPoly_eval] at this
  exact ⟨by linarith, hb⟩

lemma solve_quad_t_for_v_sound {p0 p1 p2 v t : ℝ}
    (h : t ∈ solve_quad_t_for_v p0 p1 p2 v) :
    (p0 - v) + (-2 * p0 + 2 * p1) * t + (p0 - 2 * p1 + p2) * t ^ 2 = 0 ∧
      -(1e-6 : ℝ) ≤ t ∧ t ≤ 1 + 1e-6 := by
  unfold solve_quad_t_for_v at h
  obtain ⟨hm, hb⟩ := filter_t_mem_elim h
  have := realRoots_sound hm
  rw [quadPoly_eval] at this
  exact ⟨by linarith, hb⟩

lemma solve_cubic_t_for_v_sound {p0 p1 p2 p3 v t : ℝ}
    (h : t ∈ solve_cubic_t_for_v p0 p1 p2 p3 v) :
    (p0 - v) + (-3 * p0 + 3 * p1) * t + (3 * p0 - 6 * p1 + 3 * p2) * t ^ 2 +
      (-p0 + 3 * p1 - 3 * p2 + p3) * t ^ 3 = 0 ∧
      -(1e-6 : ℝ) ≤ t ∧ t ≤ 1 + 1e-6 := by
  unfold solve_cubic_t_for_v at h
  obtain ⟨hm, hb⟩ := filter_t_mem_elim h
  have := realRoots_sound hm
  rw [cubicPoly_eval] at this
  exact ⟨by linarith, hb⟩

lemma mem_solve_t_for_x {seg : PathSeg ℝ} {t : ℝ} (hn : nonconstX seg)
    (h0 : -(1e-6 : ℝ) ≤ t) (h1 : t ≤ 1 + 1e-6) :
    t ∈ seg.solve_t_for_x ((seg.eval t).x) := by
  cases seg with
  | Line l =>
    refine mem_solve_line_t_for_v hn ?_ h0 h1
    show (l.p0.x - (l.eval t).x) + (-l.p0.x + l.p1.x) * t = 0
    simp only [Line.eval]
    ring
  | Quad q =>
    refine mem_solve_quad_t_for_v hn ?_ h0 h1
    show (q.p0.x - (q.eval t).x) + (-2 * q.p0.x + 2 * q.p1.x) * t +
      (q.p0.x - 2 * q.p1.x + q.p2.x) * t ^ 2 = 0
    simp only [QuadBez.eval]
    ring
  | Cubic c =>
    refine mem_solve_cubic_t_for_v hn ?_ h0 h1
    show (c.p0.x - (c.eval t).x) + (-3 * c.p0.x + 3 * c.p1.x) * t +
      (3 * c.p0.x - 6 * c.p1.x + 3 * c.p2.x) * t ^ 2 +
      (-c.p0.x + 3 * c.p1.x - 3 * c.p2.x + c.p3.x) * t ^ 3 = 0
    simp only [CubicBez.eval]
    ring

lemma mem_solve_t_for_y {seg : PathSeg ℝ} {t : ℝ} (hn : nonconstY seg)
    (h0 : -(1e-6 : ℝ) ≤ t) (h1 : t ≤ 1 + 1e-6) :
    t ∈ seg.solve_t_for_y ((seg.eval t).y) := by
  cases seg with
  | Line l =>
    refine mem_solve_line_t_for_v hn ?_ h0 h1
    show (l.p0.y - (l.eval t).y) + (-l.p0.y + l.p1.y) * t = 0
    simp only [Line.eval]
    ring
  | Quad q =>
    refine mem_solve_quad_t_for_v hn ?_ h0 h1
    show (q.p0.y - (q.eval t).y) + (-2 * q.p0.y + 2 * q.p1.y) * t +
      (q.p0.y - 2 * q.p1.y + q.p2.y) * t ^ 2 = 0
    simp only [QuadBez.eval]
    ring
  | Cubic c =>
    refine mem_solve_cubic_t_for_v hn ?_ h0 h1
    show (c.p0.y - (c.eval t).y) + (-3 * c.p0.y + 3 * c.p1.y) * t +
      (3 * c.p0.y - 6 * c.p1.y + 3 * c.p2.y) * t ^ 2 +
      (-c.p0.y + 3 * c.p1.y - 3 * c.p2.y + c.p3.y) * t ^ 3 = 0
    simp only [CubicBez.eval]
    ring

lemma solve_t_for_x_sound {seg : PathSeg ℝ} {t v : ℝ}
    (h : t ∈ seg.solve_t_for_x v) :
    (seg.eval t).x = v ∧ -(1e-6 : ℝ) ≤ t ∧ t ≤ 1 + 1e-6 := by
  cases seg with
  | Line l =>
    obtain ⟨hr, hb⟩ := solve_line_t_for_v_sound h
    refine ⟨?_, hb⟩
    show (l.eval t).x = v
    have : (l.eval t).x - v = (l.p0.x - v) + (-l.p0.x + l.p1.x) * t := by
      simp only [Line.eval]; ring
    linarith
  | Quad q =>
    obtain ⟨hr, hb⟩ := solve_quad_t_for_v_sound h
    refine ⟨?_, hb⟩
    show (q.eval t).x = v
    have : (q.eval t).x - v = (q.p0.x - v) + (-2 * q.p0.x + 2 * q.p1.x) * t +
        (q.p0.x - 2 * q.p1.x + q.p2.x) * t ^ 2 := by
      simp only [QuadBez.eval]; ring
    linarith
  | Cubic c =>
    obtain ⟨hr, hb⟩ := solve_cubic_t_for_v_sound h
    refine ⟨?_, hb⟩
    show (c.eval t).x = v
    have : (c.eval t).x - v = (c.p0.x - v) + (-3 * c.p0.x + 3 * c.p1.x) * t +
        (3 * c.p0.x - 6 * c.p1.x + 3 * c.p2.x) * t ^ 2 +
        (-c.p0.x + 3 * c.p1.x - 3 * c.p2.x + c.p3.x) * t ^ 3 := by
      simp only [CubicBez.eval]; ring
    linarith

lemma solve_t_for_y_sound {seg : PathSeg ℝ} {t v : ℝ}
    (h : t ∈ seg.solve_t_for_y v) :
    (seg.eval t).y = v ∧ -(1e-6 : ℝ) ≤ t ∧ t ≤ 1 + 1e-6 := by
  cases seg with
  | Line l =>
    obtain ⟨hr, hb⟩ := solve_line_t_for_v_sound h
    refine ⟨?_, hb⟩
    show (l.eval t).y = v
    have : (l.eval t).y - v = (l.p0.y - v) + (-l.p0.y + l.p1.y) * t := by
      simp only [Line.eval]; ring
    linarith
  | Quad q =>
    obtain ⟨hr, hb⟩ := solve_quad_t_for_v_sound h
    refine ⟨?_, hb⟩
    show (q.eval t).y = v
    have : (q.eval t).y - v = (q.p0.y - v) + (-2 * q.p0.y + 2 * q.p1.y) * t +
        (q.p0.y - 2 * q.p1.y + q.p2.y) * t ^ 2 := by
      simp only [QuadBez.eval]; ring
    linarith
  | Cubic c =>
    obtain ⟨hr, hb⟩ := solve_cubic_t_for_v_sound h
    refine ⟨?_, hb⟩
    show (c.eval t).y = v
    have : (c.eval t).y - v = (c.p0.y - v) + (-3 * c.p0.y + 3 * c.p1.y) * t +
        (3 * c.p0.y - 6 * c.p1.y + 3 * c.p2.y) * t ^ 2 +
        (-c.p0.y + 3 * c.p1.y - 3 * c.p2.y + c.p3.y) * t ^ 3 := by
      simp only [CubicBez.eval]; ring
    linarith

lemma solve_t_for_x_length_le (seg : PathSeg ℝ) (v : ℝ) :
    (seg.solve_t_for_x v).length ≤ 3 := by
  cases seg <;> exact filter_t_length_le _

lemma solve_t_for_y_length_le (seg : PathSeg ℝ) (v : ℝ) :
    (seg.solve_t_for_y v).length ≤ 3 := by
  cases seg <;> exact filter_t_length_le _

/-- C3: for every curve variant and every query coordinate `v`, every value
`t` returned by `solve_t_for_x v` or `solve_t_for_y v` satisfies
`-1e-6 ≤ t ≤ 1 + 1e-6`, and at most 3 values are ever returned. -/
theorem claim_C3_domain_filter (seg : PathSeg ℝ) (v : ℝ) :
    ((seg.solve_t_for_x v).length ≤ 3 ∧
      ∀ t ∈ seg.solve_t_for_x v, -(1e-6 : ℝ) ≤ t ∧ t ≤ 1 + 1e-6) ∧
    ((seg.solve_t_for_y v).length ≤ 3 ∧
      ∀ t ∈ seg.solve_t_for_y v, -(1e-6 : ℝ) ≤ t ∧ t ≤ 1 + 1e-6) :=
  ⟨⟨solve_t_for_x_length_le seg v, fun _ ht => (solve_t_for_x_sound ht).2⟩,
    ⟨solve_t_for_y_length_le seg v, fun _ ht => (solve_t_for_y_sound ht).2⟩⟩

/-- Witness for C3 at the line from (0,0) to (1,1) queried at x = 1/2, whose
solution list contains t = 1/2. -/
theorem claim_C3_witness :
    ((1 / 2 : ℝ) ∈ (PathSeg.Line (K := ℝ) ⟨⟨0, 0⟩, ⟨1, 1⟩⟩).solve_t_for_x (1 / 2)) ∧
    (-(1e-6 : ℝ) ≤ (1 / 2 : ℝ) ∧ (1 / 2 : ℝ) ≤ 1 + 1e-6) := by
  have hm : (1 / 2 : ℝ) ∈
      (PathSeg.Line (K := ℝ) ⟨⟨0, 0⟩, ⟨1, 1⟩⟩).solve_t_for_x
        (((PathSeg.Line (K := ℝ) ⟨⟨0, 0⟩, ⟨1, 1⟩⟩).eval (1 / 2)).x) :=
    mem_solve_t_for_x (by norm_num [nonconstX]) (by norm_num) (by norm_num)
  have hx : (((PathSeg.Line (K := ℝ) ⟨⟨0, 0⟩, ⟨1, 1⟩⟩).eval (1 / 2)).x) = 1 / 2 := by
    show (0 : ℝ) + 1 / 2 * (1 - 0) = 1 / 2
    norm_num
  rw [hx] at hm
  exact ⟨hm, (claim_C3_domain_filter _ _).1.2 _ hm⟩

/-- C1 (amended): for every curve variant that is non-constant in the queried
axis and every t in (0,1), `solve_t_for_x` applied to the x coordinate of
`eval t` contains a value within 1e-3 of t (in fact t itself, in exact
arithmetic), and the paired solve `solve_y_for_x` contains the y coordinate of
`eval t`; symmetrically for the y axis. -/
theorem claim_C1_round_trip (seg : PathSeg ℝ) (t : ℝ) (h0 : 0 < t) (h1 : t < 1) :
    (nonconstX seg →
      (∃ s ∈ seg.solve_t_for_x ((seg.eval t).x), |s - t| ≤ 1e-3) ∧
      (∃ w ∈ seg.solve_y_for_x ((seg.eval t).x), |w - (seg.eval t).y| ≤ 1e-3)) ∧
    (nonconstY seg →
      (∃ s ∈ seg.solve_t_for_y ((seg.eval t).y), |s - t| ≤ 1e-3) ∧
      (∃ w ∈ seg.solve_x_for_y ((seg.eval t).y), |w - (seg.eval t).x| ≤ 1e-3)) := by
  have hb0 : -(1e-6 : ℝ) ≤ t := by
    have : -(1e-6 : ℝ) ≤ 0 := by norm_num
    linarith
  have hb1 : t ≤ 1 + 1e-6 := by
    have : (0 : ℝ) ≤ 1e-6 := by norm_num
    linarith
  constructor
  · intro hn
    have hmx := mem_solve_t_for_x hn hb0 hb1
    refine ⟨⟨t, hmx, by rw [sub_self, abs_zero]; norm_num⟩, ?_⟩
    refine ⟨(seg.eval t).y, ?_, by rw [sub_self, abs_zero]; norm_num⟩
    unfold PathSeg.solve_y_for_x
    rw [List.take_of_length_le]
    · exact List.mem_map.mpr ⟨t, hmx, rfl⟩
    · rw [List.length_map]
      exact solve_t_for_x_length_le _ _
  · intro hn
    have hmy := mem_solve_t_for_y hn hb0 hb1
    refine ⟨⟨t, hmy, by rw [sub_self, abs_zero]; norm_num⟩, ?_⟩
    refine ⟨(seg.eval t).x, ?_, by rw [sub_self, abs_zero]; norm_num⟩
    unfold PathSeg.solve_x_for_y
    rw [List.take_of_length_le]
    · exact List.mem_map.mpr ⟨t, hmy, rfl⟩
    · rw [List.length_map]
      exact solve_t_for_y_length_le _ _

/-- Witness for C1 at the line from (0,0) to (1,1) and t = 1/2. -/
theorem claim_C1_witness :
    ((0 : ℝ) < 1 / 2 ∧ (1 / 2 : ℝ) < 1 ∧
      nonconstX (PathSeg.Line (K := ℝ) ⟨⟨0, 0⟩, ⟨1, 1⟩⟩)) ∧
    (∃ s ∈ (PathSeg.Line (K := ℝ) ⟨⟨0, 0⟩, ⟨1, 1⟩⟩).solve_t_for_x
        (((PathSeg.Line (K := ℝ) ⟨⟨0, 0⟩, ⟨1, 1⟩⟩).eval (1 / 2)).x),
      |s - 1 / 2| ≤ 1e-3) := by
  have hn : nonconstX (PathSeg.Line (K := ℝ) ⟨⟨0, 0⟩, ⟨1, 1⟩⟩) := by
    norm_num [nonconstX]
  exact ⟨⟨by norm_num, by norm_num, hn⟩,
    ((claim_C1_round_trip _ _ (by norm_num) (by norm_num)).1 hn).1⟩

/-- Counterexample to C1 as stated: the degenerate line whose endpoints
coincide at the origin is a curve variant, yet at t = 1/2 the round-trip
solve returns the empty sequence, which contains no value within 1e-3 of
1/2. -/
theorem claim_C1_counterexample :
    (0 : ℝ) < 1 / 2 ∧ (1 / 2 : ℝ) < 1 ∧
    ¬ ∃ s ∈ (PathSeg.Line (K := ℝ) ⟨⟨0, 0⟩, ⟨0, 0⟩⟩).solve_t_for_x
        (((PathSeg.Line (K := ℝ) ⟨⟨0, 0⟩, ⟨0, 0⟩⟩).eval (1 / 2)).x),
      |s - 1 / 2| ≤ 1e-3 := by
  refine ⟨by norm_num, by norm_num, ?_⟩
  have hempty : (PathSeg.Line (K := ℝ) ⟨⟨0, 0⟩, ⟨0, 0⟩⟩).solve_t_for_x
      (((PathSeg.Line (K := ℝ) ⟨⟨0, 0⟩, ⟨0, 0⟩⟩).eval (1 / 2)).x) = [] := by
    show solve_line_t_for_v 0 0 (((PathSeg.Line (K := ℝ) ⟨⟨0, 0⟩, ⟨0, 0⟩⟩).eval (1 / 2)).x) = []
    have hx : (((PathSeg.Line (K := ℝ) ⟨⟨0, 0⟩, ⟨0, 0⟩⟩).eval (1 / 2)).x) = 0 := by
      show (0 : ℝ) + 1 / 2 * (0 - 0) = 0
      norm_num
    rw [hx]
    unfold solve_line_t_for_v solve_linear
    have hz : linPoly (0 - 0 : ℝ) (-0 + 0) = 0 := by
      simp [linPoly]
    rw [hz]
    unfold realRoots
    rw [Polynomial.roots_zero]
    simp [filter_t]
  rw [hempty]
  simp

/-- C4 (amended): if the query value is not attained by the curve's
coordinate at any parameter of the tolerance-extended domain
`[-1e-6, 1 + 1e-6]`, the solve result is empty; this holds for both axes and
for the paired solves. -/
theorem claim_C4_out_of_range (seg : PathSeg ℝ) (v : ℝ) :
    ((∀ s : ℝ, -(1e-6 : ℝ) ≤ s → s ≤ 1 + 1e-6 → (seg.eval s).x ≠ v) →
      seg.solve_t_for_x v = [] ∧ seg.solve_y_for_x v = []) ∧
    ((∀ s : ℝ, -(1e-6 : ℝ) ≤ s → s ≤ 1 + 1e-6 → (seg.eval s).y ≠ v) →
      seg.solve_t_for_y v = [] ∧ seg.solve_x_for_y v = []) := by
  constructor
  · intro h
    have hx : seg.solve_t_for_x v = [] := by
      rw [List.eq_nil_iff_forall_not_mem]
      intro t ht
      obtain ⟨he, hb0, hb1⟩ := solve_t_for_x_sound ht
      exact h t hb0 hb1 he
    refine ⟨hx, ?_⟩
    unfold PathSeg.solve_y_for_x
    rw [hx]
    rfl
  · intro h
    have hy : seg.solve_t_for_y v = [] := by
      rw [List.eq_nil_iff_forall_not_mem]
      intro t ht
      obtain ⟨he, hb0, hb1⟩ := solve_t_for_y_sound ht
      exact h t hb0 hb1 he
    refine ⟨hy, ?_⟩
    unfold PathSeg.solve_x_for_y
    rw [hy]
    rfl

/-- Witness for C4 at the line from (0,0) to (1,1) queried at x = 2, which no
parameter of the extended domain attains. -/
theorem claim_C4_witness :
    (∀ s : ℝ, -(1e-6 : ℝ) ≤ s → s ≤ 1 + 1e-6 →
      ((PathSeg.Line (K := ℝ) ⟨⟨0, 0⟩, ⟨1, 1⟩⟩).eval s).x ≠ 2) ∧
    (PathSeg.Line (K := ℝ) ⟨⟨0, 0⟩, ⟨1, 1⟩⟩).solve_t_for_x 2 = [] := by
  have h : ∀ s : ℝ, -(1e-6 : ℝ) ≤ s → s ≤ 1 + 1e-6 →
      ((PathSeg.Line (K := ℝ) ⟨⟨0, 0⟩, ⟨1, 1⟩⟩).eval s).x ≠ 2 := by
    intro s h0 h1
    show (0 : ℝ) + s * (1 - 0) ≠ 2
    intro heq
    have hs : s = 2 := by linarith
    rw [hs] at h1
    norm_num at h1
  exact ⟨h, ((claim_C4_out_of_range _ _).1 h).1⟩

/-- Counterexample to C4 as stated: x = 1 + 1e-7 is strictly outside the
bounding x-range [0, 1] of the line from (0,0) to (1,1), yet the solve result
is non-empty, because the root t = 1 + 1e-7 passes the 1e-6 domain filter. -/
theorem claim_C4_counterexample :
    (∀ s : ℝ, 0 ≤ s → s ≤ 1 →
      ((PathSeg.Line (K := ℝ) ⟨⟨0, 0⟩, ⟨1, 1⟩⟩).eval s).x < 1 + 1e-7) ∧
    (PathSeg.Line (K := ℝ) ⟨⟨0, 0⟩, ⟨1, 1⟩⟩).solve_t_for_x (1 + 1e-7) ≠ [] := by
  constructor
  · intro s h0 h1
    show (0 : ℝ) + s * (1 - 0) < 1 + 1e-7
    have : (0 : ℝ) < 1e-7 := by norm_num
    nlinarith
  · have hmem := @mem_solve_t_for_x (PathSeg.Line (K := ℝ) ⟨⟨0, 0⟩, ⟨1, 1⟩⟩)
      (1 + 1e-7) (by norm_num [nonconstX]) (by norm_num) (by norm_num)
    have hx : (((PathSeg.Line (K := ℝ) ⟨⟨0, 0⟩, ⟨1, 1⟩⟩).eval (1 + 1e-7)).x) = 1 + 1e-7 := by
      show (0 : ℝ) + (1 + 1e-7) * (1 - 0) = 1 + 1e-7
      norm_num
    rw [hx] at hmem
    exact List.ne_nil_of_mem hmem

/-- C6: for every wrapped curve, the `Monotone` bounding box is exactly the
axis-aligned rectangle spanned by the wrapped curve's start and end points,
and `extrema_ranges` returns exactly the single full-domain range `0 .. 1`. -/
theorem claim_C6_monotone_bbox {C : Type} [ParamCurve K C] (c : C) :
    ParamCurveExtrema.bounding_box (K := K) (Monotone.mk c) =
      ⟨min (ParamCurve.start (K := K) c).x (ParamCurve.stop (K := K) c).x,
       min (ParamCurve.start (K := K) c).y (ParamCurve.stop (K := K) c).y,
       max (ParamCurve.start (K := K) c).x (ParamCurve.stop (K := K) c).x,
       max (ParamCurve.start (K := K) c).y (ParamCurve.stop (K := K) c).y⟩ ∧
    ParamCurveExtrema.extrema_ranges (K := K) (Monotone.mk c) = [(0, 1)] :=
  ⟨rfl, rfl⟩

/-- C8: both `Monotone.intersect` and `find_intersections_bbox` return the
empty sequence whenever the two bounding boxes do not overlap, and the
overlap test is strict on all four edges, so boxes that merely touch at an
edge count as non-overlapping. -/
theorem claim_C8_bbox_reject {C : Type} [ParamCurveExtrema K C] :
    (∀ (fuel cap : ℕ) (a b : C) (accuracy : K),
      ¬ bboxes_overlap (ParamCurveExtrema.bounding_box (K := K) a)
          (ParamCurveExtrema.bounding_box (K := K) b) →
        find_intersections_bbox fuel cap a b accuracy = []) ∧
    (∀ (il : PathSeg K → Line K → List K) (fuel cap : ℕ)
        (a b : Monotone (PathSeg K)) (accuracy : K),
      ¬ bboxes_overlap (ParamCurveExtrema.bounding_box (K := K) a)
          (ParamCurveExtrema.bounding_box (K := K) b) →
        Monotone.intersect il fuel cap a b accuracy = []) ∧
    (∀ ba bb : Rect K,
      ba.x1 = bb.x0 ∨ bb.x1 = ba.x0 ∨ ba.y1 = bb.y0 ∨ bb.y1 = ba.y0 →
      ¬ bboxes_overlap ba bb) := by
  refine ⟨?_, ?_, ?_⟩
  · intro fuel cap a b accuracy h
    cases fuel with
    | zero => rfl
    | succ fuel => rw [find_succ, if_pos h]
  · intro il fuel cap a b accuracy h
    unfold Monotone.intersect
    rw [if_pos h]
  · rintro ba bb (h | h | h | h) hov
    · obtain ⟨h1, -, -, -⟩ := hov
      rw [h] at h1
      exact lt_irrefl _ h1
    · obtain ⟨-, h2, -, -⟩ := hov
      rw [h] at h2
      exact lt_irrefl _ h2
    · obtain ⟨-, -, h3, -⟩ := hov
      rw [h] at h3
      exact lt_irrefl _ h3
    · obtain ⟨-, -, -, h4⟩ := hov
      rw [h] at h4
      exact lt_irrefl _ h4

/-- Witness for C8 over ℚ: two monotone lines whose boxes touch exactly at
the edge x = 1, so the strict test reports no overlap and both operations
return empty. -/
theorem claim_C8_witness :
    ((ParamCurveExtrema.bounding_box (K := ℚ)
        (Monotone.mk (PathSeg.Line (K := ℚ) ⟨⟨0, 0⟩, ⟨1, 1⟩⟩))).x1 =
      (ParamCurveExtrema.bounding_box (K := ℚ)
        (Monotone.mk (PathSeg.Line (K := ℚ) ⟨⟨1, 0⟩, ⟨2, 1⟩⟩))).x0) ∧
    find_intersections_bbox 5 3 (Monotone.mk (PathSeg.Line (K := ℚ) ⟨⟨0, 0⟩, ⟨1, 1⟩⟩))
      (Monotone.mk (PathSeg.Line (K := ℚ) ⟨⟨1, 0⟩, ⟨2, 1⟩⟩)) ((1 : ℚ) / 100) = [] ∧
    Monotone.intersect (fun _ _ => ([] : List ℚ)) 5 3
      (Monotone.mk (PathSeg.Line (K := ℚ) ⟨⟨0, 0⟩, ⟨1, 1⟩⟩))
      (Monotone.mk (PathSeg.Line (K := ℚ) ⟨⟨1, 0⟩, ⟨2, 1⟩⟩)) ((1 : ℚ) / 100) = [] := by
  have hedge : (ParamCurveExtrema.bounding_box (K := ℚ)
      (Monotone.mk (PathSeg.Line (K := ℚ) ⟨⟨0, 0⟩, ⟨1, 1⟩⟩))).x1 =
      (ParamCurveExtrema.bounding_box (K := ℚ)
        (Monotone.mk (PathSeg.Line (K := ℚ) ⟨⟨1, 0⟩, ⟨2, 1⟩⟩))).x0 := by
    show max (0 : ℚ) 1 = min (1 : ℚ) 2
    norm_num
  have hno : ¬ bboxes_overlap
      (ParamCurveExtrema.bounding_box (K := ℚ)
        (Monotone.mk (PathSeg.Line (K := ℚ) ⟨⟨0, 0⟩, ⟨1, 1⟩⟩)))
      (ParamCurveExtrema.bounding_box (K := ℚ)
        (Monotone.mk (PathSeg.Line (K := ℚ) ⟨⟨1, 0⟩, ⟨2, 1⟩⟩))) :=
    (claim_C8_bbox_reject (C := Monotone (PathSeg ℚ))).2.2 _ _ (Or.inl hedge)
  exact ⟨hedge, (claim_C8_bbox_reject).1 5 3 _ _ ((1 : ℚ) / 100) hno,
    (claim_C8_bbox_reject (C := Monotone (PathSeg ℚ))).2.1 (fun _ _ => ([] : List ℚ))
      5 3 _ _ ((1 : ℚ) / 100) hno⟩

/-- C9 (amended): when the boxes overlap and a curve's box is smaller than
the accuracy in both dimensions, the recursion stops and that box's center is
the single reported point — provided the output capacity is at least 1; the
first curve wins when both boxes are small. -/
theorem claim_C9_small_box_center {C : Type} [ParamCurveExtrema K C]
    (fuel cap : ℕ) (a b : C) (accuracy : K)
    (hov : bboxes_overlap (ParamCurveExtrema.bounding_box (K := K) a)
      (ParamCurveExtrema.bounding_box (K := K) b))
    (hcap : 1 ≤ cap) :
    ((ParamCurveExtrema.bounding_box (K := K) a).width < accuracy ∧
        (ParamCurveExtrema.bounding_box (K := K) a).height < accuracy →
      find_intersections_bbox (fuel + 1) cap a b accuracy =
        [(ParamCurveExtrema.bounding_box (K := K) a).center]) ∧
    (¬((ParamCurveExtrema.bounding_box (K := K) a).width < accuracy ∧
        (ParamCurveExtrema.bounding_box (K := K) a).height < accuracy) →
      (ParamCurveExtrema.bounding_box (K := K) b).width < accuracy ∧
        (ParamCurveExtrema.bounding_box (K := K) b).height < accuracy →
      find_intersections_bbox (fuel + 1) cap a b accuracy =
        [(ParamCurveExtrema.bounding_box (K := K) b).center]) := by
  constructor
  · intro h2
    rw [find_succ, if_neg (not_not_intro hov), if_pos h2]
    exact avPush_nil_of_cap_pos hcap _
  · intro h2 h3
    rw [find_succ, if_neg (not_not_intro hov), if_neg h2, if_pos h3]
    exact avPush_nil_of_cap_pos hcap _

/-- Witness for C9 over ℚ: a pair of tiny overlapping monotone lines at
accuracy 1/100 and capacity 3 yields exactly the first box's center. -/
theorem claim_C9_witness :
    (bboxes_overlap
      (ParamCurveExtrema.bounding_box (K := ℚ)
        (Monotone.mk (PathSeg.Line (K := ℚ) ⟨⟨0, 0⟩, ⟨1 / 1000, 1 / 1000⟩⟩)))
      (ParamCurveExtrema.bounding_box (K := ℚ)
        (Monotone.mk (PathSeg.Line (K := ℚ) ⟨⟨0, 0⟩, ⟨1 / 1000, 1 / 1000⟩⟩))) ∧
      (1 ≤ 3) ∧
      ((ParamCurveExtrema.bounding_box (K := ℚ)
        (Monotone.mk (PathSeg.Line (K := ℚ) ⟨⟨0, 0⟩, ⟨1 / 1000, 1 / 1000⟩⟩))).width < 1 / 100 ∧
       (ParamCurveExtrema.bounding_box (K := ℚ)
        (Monotone.mk (PathSeg.Line (K := ℚ) ⟨⟨0, 0⟩, ⟨1 / 1000, 1 / 1000⟩⟩))).height < 1 / 100)) ∧
    find_intersections_bbox 1 3
      (Monotone.mk (PathSeg.Line (K := ℚ) ⟨⟨0, 0⟩, ⟨1 / 1000, 1 / 1000⟩⟩))
      (Monotone.mk (PathSeg.Line (K := ℚ) ⟨⟨0, 0⟩, ⟨1 / 1000, 1 / 1000⟩⟩)) ((1 : ℚ) / 100) =
      [(ParamCurveExtrema.bounding_box (K := ℚ)
        (Monotone.mk (PathSeg.Line (K := ℚ) ⟨⟨0, 0⟩, ⟨1 / 1000, 1 / 1000⟩⟩))).center] := by
  have hov : bboxes_overlap
      (ParamCurveExtrema.bounding_box (K := ℚ)
        (Monotone.mk (PathSeg.Line (K := ℚ) ⟨⟨0, 0⟩, ⟨1 / 1000, 1 / 1000⟩⟩)))
      (ParamCurveExtrema.bounding_box (K := ℚ)
        (Monotone.mk (PathSeg.Line (K := ℚ) ⟨⟨0, 0⟩, ⟨1 / 1000, 1 / 1000⟩⟩))) := by
    show max (0 : ℚ) (1 / 1000) > min (0 : ℚ) (1 / 1000) ∧
      max (0 : ℚ) (1 / 1000) > min (0 : ℚ) (1 / 1000) ∧
      max (0 : ℚ) (1 / 1000) > min (0 : ℚ) (1 / 1000) ∧
      max (0 : ℚ) (1 / 1000) > min (0 : ℚ) (1 / 1000)
    norm_num
  have hsmall : (ParamCurveExtrema.bounding_box (K := ℚ)
      (Monotone.mk (PathSeg.Line (K := ℚ) ⟨⟨0, 0⟩, ⟨1 / 1000, 1 / 1000⟩⟩))).width < 1 / 100 ∧
      (ParamCurveExtrema.bounding_box (K := ℚ)
        (Monotone.mk (PathSeg.Line (K := ℚ) ⟨⟨0, 0⟩, ⟨1 / 1000, 1 / 1000⟩⟩))).height < 1 / 100 := by
    constructor
    · show max (0 : ℚ) (1 / 1000) - min (0 : ℚ) (1 / 1000) < 1 / 100
      norm_num
    · show max (0 : ℚ) (1 / 1000) - min (0 : ℚ) (1 / 1000) < 1 / 100
      norm_num
  exact ⟨⟨hov, by omega, hsmall⟩,
    (claim_C9_small_box_center 0 3 _ _ ((1 : ℚ) / 100) hov (by omega)).1 hsmall⟩

/-- Counterexample to C9 as stated: with output capacity 0 the center push is
silently dropped, so the result is empty rather than the reported center. -/
theorem claim_C9_counterexample :
    (bboxes_overlap
      (ParamCurveExtrema.bounding_box (K := ℚ)
        (Monotone.mk (PathSeg.Line (K := ℚ) ⟨⟨0, 0⟩, ⟨1 / 1000, 1 / 1000⟩⟩)))
      (ParamCurveExtrema.bounding_box (K := ℚ)
        (Monotone.mk (PathSeg.Line (K := ℚ) ⟨⟨0, 0⟩, ⟨1 / 1000, 1 / 1000⟩⟩))) ∧
      (ParamCurveExtrema.bounding_box (K := ℚ)
        (Monotone.mk (PathSeg.Line (K := ℚ) ⟨⟨0, 0⟩, ⟨1 / 1000, 1 / 1000⟩⟩))).width < 1 / 100 ∧
      (ParamCurveExtrema.bounding_box (K := ℚ)
        (Monotone.mk (PathSeg.Line (K := ℚ) ⟨⟨0, 0⟩, ⟨1 / 1000, 1 / 1000⟩⟩))).height < 1 / 100) ∧
    find_intersections_bbox 1 0
      (Monotone.mk (PathSeg.Line (K := ℚ) ⟨⟨0, 0⟩, ⟨1 / 1000, 1 / 1000⟩⟩))
      (Monotone.mk (PathSeg.Line (K := ℚ) ⟨⟨0, 0⟩, ⟨1 / 1000, 1 / 1000⟩⟩)) ((1 : ℚ) / 100) = [] ∧
    ([] : List (Point ℚ)) ≠
      [(ParamCurveExtrema.bounding_box (K := ℚ)
        (Monotone.mk (PathSeg.Line (K := ℚ) ⟨⟨0, 0⟩, ⟨1 / 1000, 1 / 1000⟩⟩))).center] := by
  have hov : bboxes_overlap
      (ParamCurveExtrema.bounding_box (K := ℚ)
        (Monotone.mk (PathSeg.Line (K := ℚ) ⟨⟨0, 0⟩, ⟨1 / 1000, 1 / 1000⟩⟩)))
      (ParamCurveExtrema.bounding_box (K := ℚ)
        (Monotone.mk (PathSeg.Line (K := ℚ) ⟨⟨0, 0⟩, ⟨1 / 1000, 1 / 1000⟩⟩))) := by
    show max (0 : ℚ) (1 / 1000) > min (0 : ℚ) (1 / 1000) ∧
      max (0 : ℚ) (1 / 1000) > min (0 : ℚ) (1 / 1000) ∧
      max (0 : ℚ) (1 / 1000) > min (0 : ℚ) (1 / 1000) ∧
      max (0 : ℚ) (1 / 1000) > min (0 : ℚ) (1 / 1000)
    norm_num
  have hsmall : (ParamCurveExtrema.bounding_box (K := ℚ)
      (Monotone.mk (PathSeg.Line (K := ℚ) ⟨⟨0, 0⟩, ⟨1 / 1000, 1 / 1000⟩⟩))).width < 1 / 100 ∧
      (ParamCurveExtrema.bounding_box (K := ℚ)
        (Monotone.mk (PathSeg.Line (K := ℚ) ⟨⟨0, 0⟩, ⟨1 / 1000, 1 / 1000⟩⟩))).height < 1 / 100 := by
    constructor
    · show max (0 : ℚ) (1 / 1000) - min (0 : ℚ) (1 / 1000) < 1 / 100
      norm_num
    · show max (0 : ℚ) (1 / 1000) - min (0 : ℚ) (1 / 1000) < 1 / 100
      norm_num
  refine ⟨⟨hov, hsmall.1, hsmall.2⟩, ?_, by simp⟩
  rw [find_succ, if_neg (not_not_intro hov), if_pos hsmall]
  rfl

/-- C7: when the bounding boxes overlap and either operand is a line, the
result of `Monotone.intersect` is computed analytically: the other curve is
passed to the line-intersection primitive and each hit's line parameter is
mapped to a point through the line's own evaluation (truncated to the output
capacity), with no call to the recursive solver. -/
theorem claim_C7_line_analytic (il : PathSeg K → Line K → List K) (fuel cap : ℕ)
    (a b : Monotone (PathSeg K)) (accuracy : K)
    (hov : bboxes_overlap (ParamCurveExtrema.bounding_box (K := K) a)
      (ParamCurveExtrema.bounding_box (K := K) b)) :
    (∀ l, b.val = PathSeg.Line l →
      Monotone.intersect il fuel cap a b accuracy =
        ((il a.val l).map (fun t => l.eval t)).take cap) ∧
    ((∀ l, b.val ≠ PathSeg.Line l) → ∀ l, a.val = PathSeg.Line l →
      Monotone.intersect il fuel cap a b accuracy =
        ((il b.val l).map (fun t => l.eval t)).take cap) := by
  obtain ⟨av⟩ := a
  obtain ⟨bv⟩ := b
  constructor
  · intro l hb
    have hb' : bv = PathSeg.Line l := hb
    subst hb'
    unfold Monotone.intersect
    rw [if_neg (not_not_intro hov)]
    cases av <;> rfl
  · intro hnb l ha
    have ha' : av = PathSeg.Line l := ha
    subst ha'
    unfold Monotone.intersect
    rw [if_neg (not_not_intro hov)]
    cases bv with
    | Line l2 => exact absurd rfl (hnb l2)
    | Quad q => rfl
    | Cubic c => rfl

/-- Witness for C7 over ℚ: a monotone quadratic against a monotone line with
overlapping boxes takes the analytic branch. -/
theorem claim_C7_witness :
    bboxes_overlap
      (ParamCurveExtrema.bounding_box (K := ℚ)
        (Monotone.mk (PathSeg.Quad (K := ℚ) ⟨⟨0, 0⟩, ⟨1, 1⟩, ⟨2, 2⟩⟩)))
      (ParamCurveExtrema.bounding_box (K := ℚ)
        (Monotone.mk (PathSeg.Line (K := ℚ) ⟨⟨0, 2⟩, ⟨2, 0⟩⟩))) ∧
    Monotone.intersect (fun _ _ => ([1 / 2] : List ℚ)) 4 3
      (Monotone.mk (PathSeg.Quad (K := ℚ) ⟨⟨0, 0⟩, ⟨1, 1⟩, ⟨2, 2⟩⟩))
      (Monotone.mk (PathSeg.Line (K := ℚ) ⟨⟨0, 2⟩, ⟨2, 0⟩⟩)) ((1 : ℚ) / 100) =
      ((([1 / 2] : List ℚ)).map
        (fun t => Line.eval (K := ℚ) ⟨⟨0, 2⟩, ⟨2, 0⟩⟩ t)).take 3 := by
  have hov : bboxes_overlap
      (ParamCurveExtrema.bounding_box (K := ℚ)
        (Monotone.mk (PathSeg.Quad (K := ℚ) ⟨⟨0, 0⟩, ⟨1, 1⟩, ⟨2, 2⟩⟩)))
      (ParamCurveExtrema.bounding_box (K := ℚ)
        (Monotone.mk (PathSeg.Line (K := ℚ) ⟨⟨0, 2⟩, ⟨2, 0⟩⟩))) := by
    show max (0 : ℚ) 2 > min (0 : ℚ) 2 ∧ max (0 : ℚ) 2 > min (0 : ℚ) 2 ∧
      max (0 : ℚ) 2 > min (2 : ℚ) 0 ∧ max (2 : ℚ) 0 > min (0 : ℚ) 2
    norm_num
  exact ⟨hov, (claim_C7_line_analytic _ 4 3 _ _ _ hov).1 ⟨⟨0, 2⟩, ⟨2, 0⟩⟩ rfl⟩

/-- C10: the recursive step merges the four cross-pair recursive results in
the fixed order aa, ab, ba, bb through the deduplicating bounded append; the
final output is pairwise more than 2×accuracy apart under the approximate
equality predicate; and once the output is full every further candidate is
discarded. -/
theorem claim_C10_merge {C : Type} [ParamCurveExtrema K C] :
    (∀ (fuel cap : ℕ) (a b : C) (accuracy : K),
      bboxes_overlap (ParamCurveExtrema.bounding_box (K := K) a)
        (ParamCurveExtrema.bounding_box (K := K) b) →
      ¬((ParamCurveExtrema.bounding_box (K := K) a).width < accuracy ∧
        (ParamCurveExtrema.bounding_box (K := K) a).height < accuracy) →
      ¬((ParamCurveExtrema.bounding_box (K := K) b).width < accuracy ∧
        (ParamCurveExtrema.bounding_box (K := K) b).height < accuracy) →
      find_intersections_bbox (fuel + 1) cap a b accuracy =
        extendDedup cap (2 * accuracy)
          (extendDedup cap (2 * accuracy)
            (extendDedup cap (2 * accuracy)
              (extendDedup cap (2 * accuracy) []
                (find_intersections_bbox fuel cap
                  (ParamCurve.subdivide (K := K) a).1
                  (ParamCurve.subdivide (K := K) b).1 accuracy))
              (find_intersections_bbox fuel cap
                (ParamCurve.subdivide (K := K) a).1
                (ParamCurve.subdivide (K := K) b).2 accuracy))
            (find_intersections_bbox fuel cap
              (ParamCurve.subdivide (K := K) a).2
              (ParamCurve.subdivide (K := K) b).1 accuracy))
          (find_intersections_bbox fuel cap
            (ParamCurve.subdivide (K := K) a).2
            (ParamCurve.subdivide (K := K) b).2 accuracy)) ∧
    (∀ (fuel cap : ℕ) (a b : C) (accuracy : K),
      List.Pairwise (fun p q => ¬ Point.approx_eq p q (2 * accuracy))
        (find_intersections_bbox fuel cap a b accuracy)) ∧
    (∀ (cap : ℕ) (d : K) (r values : List (Point K)), cap ≤ r.length →
      extendDedup cap d r values = r) := by
  refine ⟨?_, ?_, ?_⟩
  · intro fuel cap a b accuracy hov h2 h3
    rw [find_succ, if_neg (not_not_intro hov), if_neg h2, if_neg h3]
  · intro fuel cap a b accuracy
    exact find_pairwise fuel cap a b accuracy
  · intro cap d r values h
    exact extendDedup_full h values

/-- Witness for C10 over ℚ: a pair of crossing monotone lines whose shared
box is larger than the accuracy, so the recursive step fires, plus a full
container discarding a later candidate. -/
theorem claim_C10_witness :
    (bboxes_overlap
      (ParamCurveExtrema.bounding_box (K := ℚ)
        (Monotone.mk (PathSeg.Line (K := ℚ) ⟨⟨0, 0⟩, ⟨1, 1⟩⟩)))
      (ParamCurveExtrema.bounding_box (K := ℚ)
        (Monotone.mk (PathSeg.Line (K := ℚ) ⟨⟨0, 1⟩, ⟨1, 0⟩⟩))) ∧
      ¬((ParamCurveExtrema.bounding_box (K := ℚ)
          (Monotone.mk (PathSeg.Line (K := ℚ) ⟨⟨0, 0⟩, ⟨1, 1⟩⟩))).width < (1 : ℚ) / 100 ∧
        (ParamCurveExtrema.bounding_box (K := ℚ)
          (Monotone.mk (PathSeg.Line (K := ℚ) ⟨⟨0, 0⟩, ⟨1, 1⟩⟩))).height < (1 : ℚ) / 100) ∧
      ¬((ParamCurveExtrema.bounding_box (K := ℚ)
          (Monotone.mk (PathSeg.Line (K := ℚ) ⟨⟨0, 1⟩, ⟨1, 0⟩⟩))).width < (1 : ℚ) / 100 ∧
        (ParamCurveExtrema.bounding_box (K := ℚ)
          (Monotone.mk (PathSeg.Line (K := ℚ) ⟨⟨0, 1⟩, ⟨1, 0⟩⟩))).height < (1 : ℚ) / 100)) ∧
    find_intersections_bbox 1 3
      (Monotone.mk (PathSeg.Line (K := ℚ) ⟨⟨0, 0⟩, ⟨1, 1⟩⟩))
      (Monotone.mk (PathSeg.Line (K := ℚ) ⟨⟨0, 1⟩, ⟨1, 0⟩⟩)) ((1 : ℚ) / 100) =
      extendDedup 3 (2 * ((1 : ℚ) / 100))
        (extendDedup 3 (2 * ((1 : ℚ) / 100))
          (extendDedup 3 (2 * ((1 : ℚ) / 100))
            (extendDedup 3 (2 * ((1 : ℚ) / 100)) []
              (find_intersections_bbox 0 3
                (ParamCurve.subdivide (K := ℚ)
                  (Monotone.mk (PathSeg.Line (K := ℚ) ⟨⟨0, 0⟩, ⟨1, 1⟩⟩))).1
                (ParamCurve.subdivide (K := ℚ)
                  (Monotone.mk (PathSeg.Line (K := ℚ) ⟨⟨0, 1⟩, ⟨1, 0⟩⟩))).1 ((1 : ℚ) / 100)))
            (find_intersections_bbox 0 3
              (ParamCurve.subdivide (K := ℚ)
                (Monotone.mk (PathSeg.Line (K := ℚ) ⟨⟨0, 0⟩, ⟨1, 1⟩⟩))).1
              (ParamCurve.subdivide (K := ℚ)
                (Monotone.mk (PathSeg.Line (K := ℚ) ⟨⟨0, 1⟩, ⟨1, 0⟩⟩))).2 ((1 : ℚ) / 100)))
          (find_intersections_bbox 0 3
            (ParamCurve.subdivide (K := ℚ)
              (Monotone.mk (PathSeg.Line (K := ℚ) ⟨⟨0, 0⟩, ⟨1, 1⟩⟩))).2
            (ParamCurve.subdivide (K := ℚ)
              (Monotone.mk (PathSeg.Line (K := ℚ) ⟨⟨0, 1⟩, ⟨1, 0⟩⟩))).1 ((1 : ℚ) / 100)))
        (find_intersections_bbox 0 3
          (ParamCurve.subdivide (K := ℚ)
            (Monotone.mk (PathSeg.Line (K := ℚ) ⟨⟨0, 0⟩, ⟨1, 1⟩⟩))).2
          (ParamCurve.subdivide (K := ℚ)
            (Monotone.mk (PathSeg.Line (K := ℚ) ⟨⟨0, 1⟩, ⟨1, 0⟩⟩))).2 ((1 : ℚ) / 100)) ∧
    extendDedup 1 (2 * ((1 : ℚ) / 100)) [⟨0, 0⟩] [⟨5, 5⟩] = [⟨0, 0⟩] := by
  have hov : bboxes_overlap
      (ParamCurveExtrema.bounding_box (K := ℚ)
        (Monotone.mk (PathSeg.Line (K := ℚ) ⟨⟨0, 0⟩, ⟨1, 1⟩⟩)))
      (ParamCurveExtrema.bounding_box (K := ℚ)
        (Monotone.mk (PathSeg.Line (K := ℚ) ⟨⟨0, 1⟩, ⟨1, 0⟩⟩))) := by
    show max (0 : ℚ) 1 > min (0 : ℚ) 1 ∧ max (0 : ℚ) 1 > min (0 : ℚ) 1 ∧
      max (0 : ℚ) 1 > min (1 : ℚ) 0 ∧ max (1 : ℚ) 0 > min (0 : ℚ) 1
    norm_num
  have h2 : ¬((ParamCurveExtrema.bounding_box (K := ℚ)
      (Monotone.mk (PathSeg.Line (K := ℚ) ⟨⟨0, 0⟩, ⟨1, 1⟩⟩))).width < (1 : ℚ) / 100 ∧
      (ParamCurveExtrema.bounding_box (K := ℚ)
        (Monotone.mk (PathSeg.Line (K := ℚ) ⟨⟨0, 0⟩, ⟨1, 1⟩⟩))).height < (1 : ℚ) / 100) := by
    show ¬(max (0 : ℚ) 1 - min (0 : ℚ) 1 < 1 / 100 ∧ max (0 : ℚ) 1 - min (0 : ℚ) 1 < 1 / 100)
    norm_num
  have h3 : ¬((ParamCurveExtrema.bounding_box (K := ℚ)
      (Monotone.mk (PathSeg.Line (K := ℚ) ⟨⟨0, 1⟩, ⟨1, 0⟩⟩))).width < (1 : ℚ) / 100 ∧
      (ParamCurveExtrema.bounding_box (K := ℚ)
        (Monotone.mk (PathSeg.Line (K := ℚ) ⟨⟨0, 1⟩, ⟨1, 0⟩⟩))).height < (1 : ℚ) / 100) := by
    show ¬(max (0 : ℚ) 1 - min (0 : ℚ) 1 < 1 / 100 ∧ max (1 : ℚ) 0 - min (1 : ℚ) 0 < 1 / 100)
    norm_num
  exact ⟨⟨hov, h2, h3⟩, (claim_C10_merge).1 0 3 _ _ ((1 : ℚ) / 100) hov h2 h3,
    (claim_C10_merge (C := Monotone (PathSeg ℚ))).2.2 1 (2 * ((1 : ℚ) / 100))
      [⟨0, 0⟩] [⟨5, 5⟩] (by simp)⟩

/-- C5: the solving and intersection operations are total on every capacity
(including 0) and never exceed it: `find_intersections_bbox` and
`Monotone.intersect` always return at most `cap` points, and pushing into a
full fixed-capacity container is a silent no-op. -/
theorem claim_C5_capacity {C : Type} [ParamCurveExtrema K C] :
    (∀ (fuel cap : ℕ) (a b : C) (accuracy : K),
      (find_intersections_bbox fuel cap a b accuracy).length ≤ cap) ∧
    (∀ (il : PathSeg K → Line K → List K) (fuel cap : ℕ)
        (a b : Monotone (PathSeg K)) (accuracy : K),
      (Monotone.intersect il fuel cap a b accuracy).length ≤ cap) ∧
    (∀ (cap : ℕ) (xs : List (Point K)) (x : Point K), cap ≤ xs.length →
      avPush cap xs x = xs) := by
  refine ⟨?_, ?_, ?_⟩
  · intro fuel cap a b accuracy
    exact find_length_le fuel cap a b accuracy
  · intro il fuel cap a b accuracy
    unfold Monotone.intersect
    by_cases h : ¬ bboxes_overlap (ParamCurveExtrema.bounding_box (K := K) a)
        (ParamCurveExtrema.bounding_box (K := K) b)
    · rw [if_pos h]
      exact Nat.zero_le _
    · rw [if_neg h]
      obtain ⟨av⟩ := a
      obtain ⟨bv⟩ := b
      cases av <;> cases bv <;>
        first
          | exact List.length_take_le _ _
          | exact find_length_le _ _ _ _ _
  · intro cap xs x h
    exact avPush_full h x

/-- Witness for C5 over ℚ: a concrete capacity bound instance and a push into
a full capacity-1 container that is silently dropped. -/
theorem claim_C5_witness :
    (find_intersections_bbox 3 2
      (Monotone.mk (PathSeg.Line (K := ℚ) ⟨⟨0, 0⟩, ⟨1, 1⟩⟩))
      (Monotone.mk (PathSeg.Line (K := ℚ) ⟨⟨0, 1⟩, ⟨1, 0⟩⟩)) ((1 : ℚ) / 100)).length ≤ 2 ∧
    avPush 1 [(⟨0, 0⟩ : Point ℚ)] ⟨2, 2⟩ = [(⟨0, 0⟩ : Point ℚ)] :=
  ⟨(claim_C5_capacity).1 3 2 _ _ _,
    (claim_C5_capacity (C := Monotone (PathSeg ℚ))).2.2 1 _ _ (by simp)⟩

end Bez
